import Mathlib

/-!
Verification of the training-job script (flex_sibi): a shallow embedding of
its data handling, URI parsing, cleaning, training and report logic, with
theorems checking the documented properties against the embedded code.

Python strings are modelled as Lean String values; str.split is modelled by
a character-level splitter, str.join by a character-level joiner.  External
services (object storage, the warehouse client, the ML toolkit) are modelled
by pure descriptions of the calls the code would issue, so that claims of
the form "no call is issued before the error" become statements about the
returned value.
-/

/-- Model of Python str.split(sep) for a one-character separator, at the
level of character lists.  Splitting the empty string yields one empty
token, as in Python. -/
def charSplit (sep : Char) : List Char → List (List Char)
  | [] => [[]]
  | x :: xs =>
    match charSplit sep xs with
    | [] => [[]]
    | h :: t => if x = sep then [] :: h :: t else (x :: h) :: t

/-- Model of Python sep.join(tokens) at the level of character lists. -/
def joinCh (sep : List Char) : List (List Char) → List Char
  | [] => []
  | [x] => x
  | x :: y :: t => x ++ sep ++ joinCh sep (y :: t)

theorem charSplit_ne_nil (sep : Char) (l : List Char) : charSplit sep l ≠ [] := by
  cases l with
  | nil => simp [charSplit]
  | cons x xs =>
    simp only [charSplit]
    cases h : charSplit sep xs with
    | nil => simp
    | cons h t =>
      by_cases hx : x = sep <;> simp [hx]

theorem charSplit_cons_eq (sep x : Char) (xs : List Char) (h : List Char)
    (t : List (List Char)) (hs : charSplit sep xs = h :: t) :
    charSplit sep (x :: xs) = if x = sep then [] :: h :: t else (x :: h) :: t := by
  simp [charSplit, hs]

/-- A separator-free string splits into a single token. -/
theorem charSplit_of_not_mem {sep : Char} {l : List Char} (hl : sep ∉ l) :
    charSplit sep l = [l] := by
  induction l with
  | nil => rfl
  | cons x xs ih =>
    have hx : x ≠ sep := fun h => hl (h ▸ List.mem_cons_self x xs)
    have hxs : sep ∉ xs := fun h => hl (List.mem_cons_of_mem x h)
    rw [charSplit_cons_eq sep x xs xs [] (ih hxs)]
    simp [hx]

/-- Splitting a ++ sep :: b, when the separator does not occur in a,
peels off a as the first token. -/
theorem charSplit_append_left {sep : Char} {a : List Char} (b : List Char)
    (ha : sep ∉ a) :
    charSplit sep (a ++ sep :: b) = a :: charSplit sep b := by
  induction a with
  | nil =>
    obtain ⟨h, t, hs⟩ := List.exists_cons_of_ne_nil (charSplit_ne_nil sep b)
    simp only [List.nil_append]
    rw [charSplit_cons_eq sep sep b h t hs]
    simp [hs]
  | cons y ys ih =>
    have hy : y ≠ sep := fun h => ha (h ▸ List.mem_cons_self y ys)
    have hys : sep ∉ ys := fun h => ha (List.mem_cons_of_mem y h)
    have hrec := ih hys
    obtain ⟨h, t, hs⟩ := List.exists_cons_of_ne_nil (charSplit_ne_nil sep b)
    rw [hs] at hrec
    have := charSplit_cons_eq sep y (ys ++ sep :: b) ys (h :: t) hrec
    simp only [List.cons_append]
    rw [this]
    simp [hy, hs]

/-- Splitting p ++ sep :: f, when the separator does not occur in f,
appends f as the last token. -/
theorem charSplit_append_right {sep : Char} {f : List Char} (p : List Char)
    (hf : sep ∉ f) :
    charSplit sep (p ++ sep :: f) = charSplit sep p ++ [f] := by
  induction p with
  | nil =>
    simp only [List.nil_append]
    obtain ⟨h, t, hs⟩ := List.exists_cons_of_ne_nil (charSplit_ne_nil sep f)
    rw [charSplit_cons_eq sep sep f h t hs]
    rw [charSplit_of_not_mem hf] at hs
    cases hs
    simp [charSplit]
  | cons x xs ih =>
    obtain ⟨h, t, hs⟩ := List.exists_cons_of_ne_nil (charSplit_ne_nil sep xs)
    have hrec : charSplit sep (xs ++ sep :: f) = h :: (t ++ [f]) := by
      rw [ih, hs]; simp
    have := charSplit_cons_eq sep x (xs ++ sep :: f) h (t ++ [f]) hrec
    simp only [List.cons_append]
    rw [this, charSplit_cons_eq sep x xs h t hs]
    by_cases hx : x = sep <;> simp [hx]

/-- Joining the tokens of a split with the same separator restores the
original string. -/
theorem joinCh_charSplit (sep : Char) (l : List Char) :
    joinCh [sep] (charSplit sep l) = l := by
  induction l with
  | nil => rfl
  | cons x xs ih =>
    obtain ⟨h, t, hs⟩ := List.exists_cons_of_ne_nil (charSplit_ne_nil sep xs)
    rw [charSplit_cons_eq sep x xs h t hs]
    rw [hs] at ih
    by_cases hx : x = sep
    · subst hx
      simp only [if_pos rfl]
      cases t with
      | nil => simp [joinCh] at ih ⊢; simp [ih]
      | cons y ys => simp [joinCh] at ih ⊢; simp [ih]
    · simp only [if_neg hx]
      cases t with
      | nil => simp [joinCh] at ih ⊢; simp [ih]
      | cons y ys =>
        simp [joinCh] at ih ⊢
        simp [← List.append_assoc, ih]

/-- Joining tokens that end in an extra empty token appends a separator. -/
theorem joinCh_append_empty (sep : List Char) (xs : List (List Char))
    (hxs : xs ≠ []) : joinCh sep (xs ++ [[]]) = joinCh sep xs ++ sep := by
  induction xs with
  | nil => exact absurd rfl hxs
  | cons x t ih =>
    cases t with
    | nil => simp [joinCh]
    | cons y ys =>
      have := ih (by simp)
      simp only [List.cons_append, joinCh, List.append_eq] at this ⊢
      rw [this]
      simp [List.append_assoc]

deriving instance DecidableEq for Except

/-- The token list of process_gcs_uri after the optional filename pop:
the uri is split on the slash character; when the last token contains a
dot it is popped off as the filename. -/
def popTokens (uri : String) : List (List Char) :=
  if '.' ∈ (charSplit '/' uri.data).getLastD [] then (charSplit '/' uri.data).dropLast
  else charSplit '/' uri.data

/-- The filename token process_gcs_uri extracts: the last slash-separated
token when it contains a dot, empty otherwise. -/
def poppedFile (uri : String) : List Char :=
  if '.' ∈ (charSplit '/' uri.data).getLastD [] then (charSplit '/' uri.data).getLastD []
  else []

/-- Embedding of process_gcs_uri.  The source splits the uri on the slash,
pops a trailing filename token when it contains a dot, and then reads the
token at index 0 as the scheme and the token at index 2 as the bucket;
either read raises IndexError when the token list is too short, modelled
here as an error carrying the offending index.  The path is the
slash-join of the tokens from index 3 on, with one trailing slash
stripped. -/
def process_gcs_uri (uri : String) : Except Nat (String × String × String × String) :=
  match popTokens uri with
  | [] => Except.error 0
  | [_] => Except.error 2
  | [_, _] => Except.error 2
  | scheme :: _ :: bucket :: rest =>
    Except.ok (⟨scheme⟩, ⟨bucket⟩,
      ⟨if (joinCh ['/'] rest).getLast? = some '/' then (joinCh ['/'] rest).dropLast
        else joinCh ['/'] rest⟩,
      ⟨poppedFile uri⟩)

example : process_gcs_uri "gs://bucket/data/file.csv"
    = Except.ok ("gs:", "bucket", "data", "file.csv") := by decide

example : process_gcs_uri "http://bucket/path"
    = Except.ok ("http:", "bucket", "path", "") := by decide

example : process_gcs_uri "a.b" = Except.error 0 := by decide

example : process_gcs_uri "gs:/bucket" = Except.error 2 := by decide

example : process_gcs_uri "gs://bucket/a/b.c/d/"
    = Except.ok ("gs:", "bucket", "a/b.c/d", "") := by decide

/-- Splitting a well-formed uri on the slash: the scheme token keeps its
colon, an empty token sits between the two slashes, then the bucket, then
the split of the remaining tail. -/
theorem charSplit_uri_core (schD bktD tail : List Char)
    (hs : '/' ∉ schD) (hb : '/' ∉ bktD) :
    charSplit '/' (schD ++ ':' :: '/' :: '/' :: (bktD ++ '/' :: tail))
      = (schD ++ [':']) :: [] :: bktD :: charSplit '/' tail := by
  have e : schD ++ ':' :: '/' :: '/' :: (bktD ++ '/' :: tail)
      = (schD ++ [':']) ++ '/' :: ([] ++ '/' :: (bktD ++ '/' :: tail)) := by simp
  rw [e, charSplit_append_left _ (by simp [hs]),
      charSplit_append_left _ (by simp),
      charSplit_append_left _ hb]

theorem uri_data_with_file (sch bkt path f : String) :
    (sch ++ "://" ++ bkt ++ "/" ++ path ++ "/" ++ f).data
      = sch.data ++ ':' :: '/' :: '/' :: (bkt.data ++ '/' :: (path.data ++ '/' :: f.data)) := by
  simp [String.data_append]

theorem uri_data_no_file (sch bkt path : String) :
    (sch ++ "://" ++ bkt ++ "/" ++ path ++ "/").data
      = sch.data ++ ':' :: '/' :: '/' :: (bkt.data ++ '/' :: (path.data ++ '/' :: [])) := by
  simp [String.data_append]

theorem mk_append_colon (sch : String) : (⟨sch.data ++ [':']⟩ : String) = sch ++ ":" :=
  String.ext (by simp [String.data_append])

/-- C2 counterexample: on gs://bucket/data/file.csv the parser returns the
scheme token with its trailing colon, not the bare scheme, so the claimed
quadruple (scheme, bucket, path, file.ext) is not what is returned. -/
theorem process_gcs_uri_scheme_keeps_colon :
    process_gcs_uri "gs://bucket/data/file.csv"
        ≠ Except.ok ("gs", "bucket", "data", "file.csv")
    ∧ process_gcs_uri "gs://bucket/data/file.csv"
        = Except.ok ("gs:", "bucket", "data", "file.csv") := by
  constructor
  · decide
  · decide

/-- C2 (amended): for a uri of the shape scheme://bucket/path/file.ext the
parser returns the four components with the scheme token keeping its colon,
(scheme:, bucket, path, file.ext); and for scheme://bucket/path/ with no
filename it returns an empty filename and the path with the trailing slash
removed.  The side conditions say that scheme, bucket and filename contain
no slash, the filename contains a dot, and the path does not already end
in a slash. -/
theorem process_gcs_uri_roundtrip (sch bkt path f : String)
    (hs : '/' ∉ sch.data) (hb : '/' ∉ bkt.data)
    (hf : '/' ∉ f.data) (hfd : '.' ∈ f.data)
    (hp : path.data.getLast? ≠ some '/') :
    process_gcs_uri (sch ++ "://" ++ bkt ++ "/" ++ path ++ "/" ++ f)
      = Except.ok (sch ++ ":", bkt, path, f)
    ∧ process_gcs_uri (sch ++ "://" ++ bkt ++ "/" ++ path ++ "/")
      = Except.ok (sch ++ ":", bkt, path, "") := by
  constructor
  · have harr : charSplit '/' (sch ++ "://" ++ bkt ++ "/" ++ path ++ "/" ++ f).data
        = ((sch.data ++ [':']) :: [] :: bkt.data :: charSplit '/' path.data) ++ [f.data] := by
      rw [uri_data_with_file, charSplit_uri_core _ _ _ hs hb,
          charSplit_append_right _ hf]
      simp
    have hlast : (charSplit '/' (sch ++ "://" ++ bkt ++ "/" ++ path ++ "/" ++ f).data).getLastD []
        = f.data := by rw [harr]; exact List.getLastD_concat _ _ _
    have hpop : popTokens (sch ++ "://" ++ bkt ++ "/" ++ path ++ "/" ++ f)
        = (sch.data ++ [':']) :: [] :: bkt.data :: charSplit '/' path.data := by
      unfold popTokens
      rw [hlast, if_pos hfd, harr, List.dropLast_concat]
    have hfile : poppedFile (sch ++ "://" ++ bkt ++ "/" ++ path ++ "/" ++ f) = f.data := by
      unfold poppedFile
      rw [hlast, if_pos hfd]
    unfold process_gcs_uri
    rw [hpop, hfile]
    simp only [joinCh_charSplit, if_neg hp]
    rw [mk_append_colon]
  · have harr : charSplit '/' (sch ++ "://" ++ bkt ++ "/" ++ path ++ "/").data
        = ((sch.data ++ [':']) :: [] :: bkt.data :: charSplit '/' path.data) ++ [[]] := by
      rw [uri_data_no_file, charSplit_uri_core _ _ _ hs hb,
          charSplit_append_right _ (by simp)]
      simp
    have hlast : (charSplit '/' (sch ++ "://" ++ bkt ++ "/" ++ path ++ "/").data).getLastD []
        = [] := by rw [harr]; exact List.getLastD_concat _ _ _
    have hpop : popTokens (sch ++ "://" ++ bkt ++ "/" ++ path ++ "/")
        = (sch.data ++ [':']) :: [] :: bkt.data :: (charSplit '/' path.data ++ [[]]) := by
      unfold popTokens
      rw [hlast]
      simp only [List.not_mem_nil, if_false]
      rw [harr]
      simp
    have hfile : poppedFile (sch ++ "://" ++ bkt ++ "/" ++ path ++ "/") = [] := by
      unfold poppedFile
      rw [hlast]
      simp
    have hjoin : joinCh ['/'] (charSplit '/' path.data ++ [[]]) = path.data ++ ['/'] := by
      rw [joinCh_append_empty _ _ (charSplit_ne_nil '/' path.data), joinCh_charSplit]
    unfold process_gcs_uri
    rw [hpop, hfile]
    simp only [hjoin, List.getLast?_concat, if_pos rfl, List.dropLast_concat]
    rw [mk_append_colon]
    rfl

/-- C2 witness: the amended roundtrip evaluated on gs://bucket/data/file.csv
and gs://bucket/data/. -/
theorem process_gcs_uri_roundtrip_witness :
    process_gcs_uri ("gs" ++ "://" ++ "bucket" ++ "/" ++ "data" ++ "/" ++ "file.csv")
      = Except.ok ("gs" ++ ":", "bucket", "data", "file.csv")
    ∧ process_gcs_uri ("gs" ++ "://" ++ "bucket" ++ "/" ++ "data" ++ "/")
      = Except.ok ("gs" ++ ":", "bucket", "data", "") :=
  process_gcs_uri_roundtrip "gs" "bucket" "data" "file.csv"
    (by decide) (by decide) (by decide) (by decide) (by decide)

/-- C8 counterexample: on the input a.b - a single token that contains a
dot - the filename pop empties the token list, so the failing read is the
scheme access at index 0, not the bucket access at index 2. -/
theorem process_gcs_uri_index_zero_failure :
    (popTokens "a.b").length < 3
    ∧ process_gcs_uri "a.b" = Except.error 0
    ∧ process_gcs_uri "a.b" ≠ Except.error 2 := by decide

/-- C8 (amended): process_gcs_uri is partial.  When fewer than three
slash-separated tokens remain after the optional filename pop, it fails
with an index-out-of-range error - at index 2 (the bucket token) except
when the pop emptied the token list, in which case the scheme access at
index 0 fails first; it returns a four-tuple exactly when at least three
tokens remain. -/
theorem process_gcs_uri_partiality (uri : String) :
    ((popTokens uri).length < 3 →
      process_gcs_uri uri = Except.error (if popTokens uri = [] then 0 else 2))
    ∧ (3 ≤ (popTokens uri).length ↔ ∃ r, process_gcs_uri uri = Except.ok r) := by
  rcases h : popTokens uri with _ | ⟨a, _ | ⟨b, _ | ⟨c, t⟩⟩⟩
  · refine ⟨fun _ => ?_, ⟨fun hge => by simp at hge, ?_⟩⟩
    · unfold process_gcs_uri
      rw [h]
      simp
    · rintro ⟨r, hr⟩
      unfold process_gcs_uri at hr
      rw [h] at hr
      simp at hr
  · refine ⟨fun _ => ?_, ⟨fun hge => by simp at hge, ?_⟩⟩
    · unfold process_gcs_uri
      rw [h]
      simp
    · rintro ⟨r, hr⟩
      unfold process_gcs_uri at hr
      rw [h] at hr
      simp at hr
  · refine ⟨fun _ => ?_, ⟨fun hge => by simp at hge, ?_⟩⟩
    · unfold process_gcs_uri
      rw [h]
      simp
    · rintro ⟨r, hr⟩
      unfold process_gcs_uri at hr
      rw [h] at hr
      simp at hr
  · refine ⟨fun hlt => by simp at hlt; omega, ⟨fun _ => ?_, fun _ => by simp⟩⟩
    exact ⟨_, by unfold process_gcs_uri; rw [h]⟩

/-- C8 witness: on gs:/bucket (two tokens) the parser fails at index 2. -/
theorem process_gcs_uri_partiality_witness :
    (popTokens "gs:/bucket").length < 3
    ∧ process_gcs_uri "gs:/bucket" = Except.error 2 := by
  have h := (process_gcs_uri_partiality "gs:/bucket").1 (by decide)
  have e : (if popTokens "gs:/bucket" = [] then (0 : Nat) else 2) = 2 := by decide
  exact ⟨by decide, by rw [e] at h; exact h⟩

/-- Model of os.path.join for a second component without a leading
slash, as used by both export functions. -/
def osPathJoin (a b : String) : String :=
  if a = "" then b
  else if a.data.getLast? = some '/' then a ++ b
  else a ++ "/" ++ b

/-- Description of the one storage call an export would make: the bucket
it would open and the blob path and payload it would upload.  An export
that fails returns an error and therefore describes no call at all. -/
structure UploadCall (α : Type) where
  bucket : String
  blobPath : String
  payload : α
deriving DecidableEq

/-- Embedding of pipeline_export_gcs.  The pickled pipeline is abstract.
The uri is parsed; a parse IndexError propagates; a parsed scheme other
than gs: raises ValueError before any storage client is built; otherwise
the upload call and the returned export location are described. -/
def pipeline_export_gcs {α : Type} (fitted_pipeline : α) (model_dir : String) :
    Except String (UploadCall α × String) :=
  match process_gcs_uri model_dir with
  | Except.error n => Except.error ("IndexError: " ++ toString n)
  | Except.ok (scheme, bucket, path, _) =>
    if scheme ≠ "gs:" then Except.error "URI scheme must be gs"
    else
      Except.ok ({ bucket := bucket, blobPath := osPathJoin path "model.pkl",
                   payload := fitted_pipeline },
        scheme ++ "//" ++ osPathJoin bucket (osPathJoin path "model.pkl"))

/-- Embedding of report_export_gcs, identical control flow with the report
text uploaded to report.txt. -/
def report_export_gcs (report : String) (report_dir : String) :
    Except String (UploadCall String × String) :=
  match process_gcs_uri report_dir with
  | Except.error n => Except.error ("IndexError: " ++ toString n)
  | Except.ok (scheme, bucket, path, _) =>
    if scheme ≠ "gs:" then Except.error "URI scheme must be gs"
    else
      Except.ok ({ bucket := bucket, blobPath := osPathJoin path "report.txt",
                   payload := report },
        scheme ++ "//" ++ osPathJoin bucket (osPathJoin path "report.txt"))

/-- C4: for every directory uri whose parsed scheme differs from the
object-storage token gs:, both export functions fail with the
scheme-validation error, and since the error value carries no UploadCall,
no storage call is described - the embedding is pure, so no state changes
before the error. -/
theorem export_gcs_rejects_non_gs_scheme {α : Type} (fitted : α) (report dir : String)
    (s b p f : String) (hparse : process_gcs_uri dir = Except.ok (s, b, p, f))
    (hscheme : s ≠ "gs:") :
    pipeline_export_gcs fitted dir = Except.error "URI scheme must be gs"
    ∧ report_export_gcs report dir = Except.error "URI scheme must be gs" := by
  constructor
  · unfold pipeline_export_gcs
    rw [hparse]
    simp [hscheme]
  · unfold report_export_gcs
    rw [hparse]
    simp [hscheme]

/-- C4 witness: the exports on http://bucket/path. -/
theorem export_gcs_rejects_non_gs_scheme_witness :
    pipeline_export_gcs (0 : Nat) "http://bucket/path" = Except.error "URI scheme must be gs"
    ∧ report_export_gcs "report text" "http://bucket/path"
        = Except.error "URI scheme must be gs" :=
  export_gcs_rejects_non_gs_scheme 0 "report text" "http://bucket/path"
    "http:" "bucket" "path" "" (by decide) (by decide)

/-- Description of the one warehouse query load_data_from_bq would issue:
the project the client is built for and the query text. -/
structure BqCall where
  project : String
  query : String
deriving DecidableEq

/-- Embedding of load_data_from_bq.  A uri without the bq:// prefix raises
before any client is constructed; with the prefix, the uri is split on the
dot and unpacked into exactly three parts (a different number of parts
raises ValueError at the unpacking), the client project is the first part
with the five prefix characters dropped, and a SELECT * query over
dataset.table is issued. -/
def load_data_from_bq (bq_uri : String) : Except String BqCall :=
  if ¬ ("bq://".data.isPrefixOf bq_uri.data) then
    Except.error "uri is not a BQ uri. It should be bq://project_id.dataset.table"
  else
    match charSplit '.' bq_uri.data with
    | [project, dataset, table] =>
      Except.ok { project := ⟨project.drop 5⟩,
                  query := "\n    SELECT * from " ++ (⟨dataset⟩ : String) ++ "."
                    ++ (⟨table⟩ : String) ++ "\n    " }
    | _ => Except.error "ValueError: unpacking the dot-split failed"

example : load_data_from_bq "bq://proj.ds.tbl"
    = Except.ok ⟨"proj", "\n    SELECT * from ds.tbl\n    "⟩ := by decide

example : load_data_from_bq "gs://bucket/file.csv"
    = Except.error "uri is not a BQ uri. It should be bq://project_id.dataset.table" := by
  decide

/-- C5 counterexample: bq://abc carries the required prefix, yet no query
is issued - the three-way unpacking of the dot-split raises ValueError
first. -/
theorem load_data_from_bq_prefix_without_query :
    "bq://".data.isPrefixOf ("bq://abc").data = true
    ∧ load_data_from_bq "bq://abc"
        = Except.error "ValueError: unpacking the dot-split failed" := by decide

/-- C5 (amended): without the bq:// prefix the loader fails with the input
error before any client or query is described; with the prefix, when the
dot-split has exactly three parts the full-table scan query is issued, and
otherwise the unpacking raises ValueError, still before any query. -/
theorem load_data_from_bq_control_flow (uri : String) :
    (¬ "bq://".data.isPrefixOf uri.data →
      load_data_from_bq uri
        = Except.error "uri is not a BQ uri. It should be bq://project_id.dataset.table")
    ∧ (∀ p d t, "bq://".data.isPrefixOf uri.data → charSplit '.' uri.data = [p, d, t] →
      load_data_from_bq uri
        = Except.ok ⟨⟨p.drop 5⟩, "\n    SELECT * from " ++ (⟨d⟩ : String) ++ "."
            ++ (⟨t⟩ : String) ++ "\n    "⟩)
    ∧ ("bq://".data.isPrefixOf uri.data →
      (∀ p d t, charSplit '.' uri.data ≠ [p, d, t]) →
      load_data_from_bq uri = Except.error "ValueError: unpacking the dot-split failed") := by
  refine ⟨fun h => ?_, fun p d t h hsplit => ?_, fun h hne => ?_⟩
  · unfold load_data_from_bq
    rw [if_pos h]
  · unfold load_data_from_bq
    rw [if_neg (not_not_intro h), hsplit]
  · unfold load_data_from_bq
    rw [if_neg (not_not_intro h)]
    rcases hl : charSplit '.' uri.data with _ | ⟨a, _ | ⟨b, _ | ⟨c, _ | ⟨e, t2⟩⟩⟩⟩
    · rfl
    · rfl
    · rfl
    · exact absurd hl (hne a b c)
    · rfl

/-- C5 witness: the loader evaluated with and without the prefix. -/
theorem load_data_from_bq_control_flow_witness :
    load_data_from_bq "proj.ds.tbl"
      = Except.error "uri is not a BQ uri. It should be bq://project_id.dataset.table"
    ∧ load_data_from_bq "bq://proj.ds.tbl"
      = Except.ok ⟨⟨("bq://proj".data).drop 5⟩, "\n    SELECT * from " ++ (⟨"ds".data⟩ : String)
          ++ "." ++ (⟨"tbl".data⟩ : String) ++ "\n    "⟩ :=
  ⟨(load_data_from_bq_control_flow "proj.ds.tbl").1 (by decide),
   (load_data_from_bq_control_flow "bq://proj.ds.tbl").2.1 "bq://proj".data "ds".data
     "tbl".data (by decide) (by decide)⟩

/-- A data-loading call the main block would make: either the wildcard
object-storage CSV reader or the warehouse loader, with its uri. -/
inductive LoaderCall : Type
  | gcs (uri : String)
  | bq (uri : String)
deriving DecidableEq

/-- Embedding of the data_format dispatch in the main block.  In csv mode
the source loads df_train with load_data_from_gcs, df_test with
load_data_from_bq, and df_valid with load_data_from_gcs; in bigquery mode
all three use load_data_from_bq; any other format raises ValueError.  The
triple is in assignment order (train, test, valid). -/
def main_load_dispatch (data_format training_data_uri validation_data_uri
    test_data_uri : String) : Except String (LoaderCall × LoaderCall × LoaderCall) :=
  if data_format = "csv" then
    Except.ok (LoaderCall.gcs training_data_uri, LoaderCall.bq test_data_uri,
      LoaderCall.gcs validation_data_uri)
  else if data_format = "bigquery" then
    Except.ok (LoaderCall.bq training_data_uri, LoaderCall.bq test_data_uri,
      LoaderCall.bq validation_data_uri)
  else Except.error "Invalid data type "

/-- C1: in csv mode the test table is routed to the warehouse loader, not
the object-storage CSV loader, and that loader rejects the gs:// test uri
outright - the csv branch can never load a gs:// test table. -/
theorem csv_mode_routes_test_table_to_bq :
    main_load_dispatch "csv" "gs://b/train-*.csv" "gs://b/valid-*.csv" "gs://b/test-*.csv"
      = Except.ok (LoaderCall.gcs "gs://b/train-*.csv", LoaderCall.bq "gs://b/test-*.csv",
          LoaderCall.gcs "gs://b/valid-*.csv")
    ∧ LoaderCall.bq "gs://b/test-*.csv" ≠ LoaderCall.gcs "gs://b/test-*.csv"
    ∧ load_data_from_bq "gs://b/test-*.csv"
      = Except.error "uri is not a BQ uri. It should be bq://project_id.dataset.table" := by
  refine ⟨by decide, by decide, ?_⟩
  decide

/-- Model of Python bool(s) on a string: False exactly on the empty
string. -/
def pyTruthy (s : String) : Bool := !s.data.isEmpty

/-- Embedding of the model_param_probability argument handling: argparse
applies type=bool, that is Python truthiness, to the raw string whenever
the flag is supplied, and uses the default True when it is absent. -/
def parse_model_param_probability : Option String → Bool
  | none => true
  | some v => pyTruthy v

/-- C10: any non-empty string supplied for model_param_probability parses
to True, the empty string parses to False, and an absent flag defaults to
True. -/
theorem model_param_probability_truthiness :
    (∀ s : String, s ≠ "" → parse_model_param_probability (some s) = true)
    ∧ parse_model_param_probability (some "") = false
    ∧ parse_model_param_probability none = true := by
  refine ⟨fun s hs => ?_, rfl, rfl⟩
  unfold parse_model_param_probability pyTruthy
  cases h : s.data with
  | nil => exact absurd (String.ext h) hs
  | cons c cs => simp [h]

/-- C10 witness: the strings False, 0 and no all parse to True. -/
theorem model_param_probability_truthiness_witness :
    parse_model_param_probability (some "False") = true
    ∧ parse_model_param_probability (some "0") = true
    ∧ parse_model_param_probability (some "no") = true :=
  ⟨model_param_probability_truthiness.1 "False" (by decide),
   model_param_probability_truthiness.1 "0" (by decide),
   model_param_probability_truthiness.1 "no" (by decide)⟩

/-- A column after numeric coercion: some q for a value that pd.to_numeric
coerces to the rational q, none for a value that fails coercion and
becomes NaN.  Cells that Python would coerce successfully (numbers and
numeric strings) are modelled directly as some q. -/
abbrev Column := List (Option ℚ)

/-- A dataframe as an ordered association of column names to columns. -/
abbrev Table := List (String × Column)

/-- Reading a dataframe column by name; none models a KeyError. -/
def getCol : Table → String → Option Column
  | [], _ => none
  | (m, c) :: rest, n => if m = n then some c else getCol rest n

/-- Assigning a dataframe column by name, in place. -/
def setCol : Table → String → Column → Table
  | [], _, _ => []
  | (m, c) :: rest, n, c2 =>
    if m = n then (m, c2) :: setCol rest n c2 else (m, c) :: setCol rest n c2

/-- Model of Series.mean: the mean of the non-missing entries, NaN (none)
when there are no such entries. -/
def pandasMean (l : List ℚ) : Option ℚ :=
  if l.isEmpty then none else some (l.sum / l.length)

/-- One column pass of clean_missing_numerics: coerce (already reflected
in the cell encoding), then fillna with the column mean.  Filling with a
NaN mean is a no-op, as in pandas. -/
def clean_column (c : Column) : Column :=
  match pandasMean (c.filterMap id) with
  | none => c
  | some m => c.map fun x => some (x.getD m)

/-- Embedding of clean_missing_numerics: for each listed column name, read
the column (KeyError when absent), clean it and assign it back, then
return the mutated dataframe. -/
def clean_missing_numerics : Table → List String → Except String Table
  | df, [] => Except.ok df
  | df, n :: rest =>
    match getCol df n with
    | none => Except.error ("KeyError: " ++ n)
    | some c => clean_missing_numerics (setCol df n (clean_column c)) rest

/-- The number of missing entries of a column. -/
def count_missing (c : Column) : Nat := c.countP fun x => x.isNone

/-- Every entry of the column is present (non-missing). -/
def allSome (c : Column) : Prop := ∀ x ∈ c, x.isSome

theorem getCol_setCol_self (df : Table) (n : String) (c : Column) :
    getCol (setCol df n c) n = (getCol df n).map fun _ => c := by
  induction df with
  | nil => rfl
  | cons p rest ih =>
    obtain ⟨m, c0⟩ := p
    by_cases h : m = n <;> simp [getCol, setCol, h, ih]

theorem getCol_setCol_ne (df : Table) (n m : String) (c : Column) (h : m ≠ n) :
    getCol (setCol df n c) m = getCol df m := by
  induction df with
  | nil => rfl
  | cons p rest ih =>
    obtain ⟨k, c0⟩ := p
    have hnm : ¬ (n = m) := fun e => h e.symm
    by_cases hk : k = n
    · simp [setCol, getCol, hk, hnm, ih]
    · by_cases hm : k = m <;> simp [setCol, getCol, hk, hm, h, hnm, ih]

theorem setCol_names (df : Table) (n : String) (c : Column) :
    (setCol df n c).map Prod.fst = df.map Prod.fst := by
  induction df with
  | nil => rfl
  | cons p rest ih =>
    obtain ⟨k, c0⟩ := p
    by_cases hk : k = n <;> simp [setCol, hk, ih]

theorem clean_column_allSome (c : Column)
    (h : c.filterMap id ≠ [] ∨ allSome c) : allSome (clean_column c) := by
  unfold clean_column
  cases hm : pandasMean (c.filterMap id) with
  | none =>
    have hempty : c.filterMap id = [] := by
      by_contra hne
      simp [pandasMean, List.isEmpty_iff, hne] at hm
    rcases h with h | h
    · exact absurd hempty h
    · exact h
  | some m => intro x hx; simp at hx; obtain ⟨y, _, e⟩ := hx; simp [← e]

theorem clean_column_of_allSome (c : Column) (h : allSome c) :
    clean_column c = c := by
  unfold clean_column
  cases hm : pandasMean (c.filterMap id) with
  | none => rfl
  | some m =>
    conv_rhs => rw [← List.map_id c]
    refine List.map_congr_left fun x hx => ?_
    obtain ⟨y, hy⟩ := Option.isSome_iff_exists.mp (h x hx)
    simp [hy]

theorem clean_column_is_map (c : Column) : ∃ g, clean_column c = c.map g := by
  unfold clean_column
  cases pandasMean (c.filterMap id) with
  | none => exact ⟨id, (List.map_id c).symm⟩
  | some m => exact ⟨fun x => some (x.getD m), rfl⟩

/-- Driving clean_missing_numerics down its column list: when every listed
column exists and either has a coercible entry or is already fully
present, the pass succeeds, each listed column ends up cleaned, and
unlisted columns are untouched. -/
theorem clean_go : ∀ (cols : List String) (df : Table),
    (∀ n ∈ cols, ∃ c, getCol df n = some c ∧ (c.filterMap id ≠ [] ∨ allSome c)) →
    ∃ t, clean_missing_numerics df cols = Except.ok t
      ∧ (∀ n ∈ cols, ∃ c, getCol df n = some c ∧ getCol t n = some (clean_column c))
      ∧ (∀ m, m ∉ cols → getCol t m = getCol df m) := by
  intro cols
  induction cols with
  | nil => exact fun df _ => ⟨df, rfl, by simp, fun m _ => rfl⟩
  | cons n rest ih =>
    intro df hdf
    obtain ⟨c0, hc0, hgood⟩ := hdf n (List.mem_cons_self n rest)
    have hstep : clean_missing_numerics df (n :: rest)
        = clean_missing_numerics (setCol df n (clean_column c0)) rest := by
      simp only [clean_missing_numerics]
      rw [hc0]
    have hdf2 : ∀ k ∈ rest, ∃ c, getCol (setCol df n (clean_column c0)) k = some c
        ∧ (c.filterMap id ≠ [] ∨ allSome c) := by
      intro k hk
      by_cases hkn : k = n
      · subst hkn
        refine ⟨clean_column c0, ?_, Or.inr (clean_column_allSome c0 hgood)⟩
        rw [getCol_setCol_self, hc0]
        rfl
      · obtain ⟨c, hc, hg⟩ := hdf k (List.mem_cons_of_mem n hk)
        exact ⟨c, by rw [getCol_setCol_ne _ _ _ _ hkn]; exact hc, hg⟩
    obtain ⟨t, hok, hvals, hframe⟩ := ih (setCol df n (clean_column c0)) hdf2
    have hdf2n : getCol (setCol df n (clean_column c0)) n = some (clean_column c0) := by
      rw [getCol_setCol_self, hc0]
      rfl
    refine ⟨t, by rw [hstep]; exact hok, ?_, ?_⟩
    · intro k hk
      by_cases hkn : k = n
      · subst hkn
        refine ⟨c0, hc0, ?_⟩
        by_cases hkr : k ∈ rest
        · obtain ⟨c, hc, hct⟩ := hvals k hkr
          rw [hdf2n] at hc
          have hcc : c = clean_column c0 := by injection hc.symm
          rw [hct, hcc, clean_column_of_allSome _ (clean_column_allSome c0 hgood)]
        · rw [hframe k hkr, hdf2n]
      · have hkr : k ∈ rest := (List.mem_cons.mp hk).resolve_left hkn
        obtain ⟨c, hc, hct⟩ := hvals k hkr
        rw [getCol_setCol_ne _ _ _ _ hkn] at hc
        exact ⟨c, hc, hct⟩
    · intro m hm
      have hmn : m ≠ n := fun e => hm (e ▸ List.mem_cons_self n rest)
      have hmr : m ∉ rest := fun e => hm (List.mem_cons_of_mem n e)
      rw [hframe m hmr, getCol_setCol_ne _ _ _ _ hmn]

/-- C3 counterexample: a column whose every entry fails coercion has a NaN
mean, fillna with NaN is a no-op, and the missing entry survives the
cleaning pass. -/
theorem clean_missing_numerics_all_invalid_column :
    clean_missing_numerics [("p0", [(none : Option ℚ)])] ["p0"]
      = Except.ok [("p0", [none])]
    ∧ count_missing [(none : Option ℚ)] = 1 := by decide

/-- C3 (amended): when every listed column exists and has at least one
successfully coerced entry, cleaning succeeds and each listed column comes
back with every failing value replaced by the mean of the coerced entries
and with no missing entries left. -/
theorem clean_missing_numerics_imputes_mean (df : Table) (cols : List String)
    (h : ∀ n ∈ cols, ∃ c, getCol df n = some c ∧ c.filterMap id ≠ []) :
    ∃ t, clean_missing_numerics df cols = Except.ok t
      ∧ ∀ n ∈ cols, ∃ c c2, getCol df n = some c ∧ getCol t n = some c2
          ∧ c2 = c.map (fun x =>
              some (x.getD ((c.filterMap id).sum / (c.filterMap id).length)))
          ∧ count_missing c2 = 0 := by
  obtain ⟨t, hok, hvals, _⟩ :=
    clean_go cols df (fun n hn => (h n hn).imp fun c hc => ⟨hc.1, Or.inl hc.2⟩)
  refine ⟨t, hok, fun n hn => ?_⟩
  obtain ⟨c, hc, hct⟩ := hvals n hn
  obtain ⟨c', hc', hne⟩ := h n hn
  have hcc : c' = c := by
    rw [hc] at hc'
    exact (Option.some.inj hc').symm
  subst hcc
  have hmean : pandasMean (c'.filterMap id)
      = some ((c'.filterMap id).sum / (c'.filterMap id).length) := by
    unfold pandasMean
    rw [if_neg]
    simpa [List.isEmpty_iff] using hne
  refine ⟨c', c'.map (fun x =>
      some (x.getD ((c'.filterMap id).sum / (c'.filterMap id).length))), hc, ?_, rfl, ?_⟩
  · rw [hct]
    unfold clean_column
    rw [hmean]
  · simp [count_missing, List.countP_eq_zero]

/-- C3 witness: a column with entries 1, missing, 3 is imputed with the
mean 2 of its coerced entries. -/
theorem clean_missing_numerics_imputes_mean_witness :
    (∀ n ∈ ["p0"], ∃ c, getCol [("p0", [some (1 : ℚ), none, some 3])] n = some c
      ∧ c.filterMap id ≠ [])
    ∧ ∃ t, clean_missing_numerics [("p0", [some (1 : ℚ), none, some 3])] ["p0"]
        = Except.ok t
      ∧ ∀ n ∈ ["p0"], ∃ c c2, getCol [("p0", [some (1 : ℚ), none, some 3])] n = some c
          ∧ getCol t n = some c2
          ∧ c2 = c.map (fun x =>
              some (x.getD ((c.filterMap id).sum / (c.filterMap id).length)))
          ∧ count_missing c2 = 0 := by
  have hyp : ∀ n ∈ ["p0"], ∃ c, getCol [("p0", [some (1 : ℚ), none, some 3])] n = some c
      ∧ c.filterMap id ≠ [] := by
    intro n hn
    simp only [List.mem_singleton] at hn
    subst hn
    exact ⟨[some 1, none, some 3], rfl, by decide⟩
  exact ⟨hyp, clean_missing_numerics_imputes_mean _ _ hyp⟩

/-- Structure of a successful cleaning pass: unlisted columns are
untouched, every column of the result is an index-wise map of the
original column, and the column names are unchanged. -/
theorem clean_frame_aux : ∀ (cols : List String) (df t : Table),
    clean_missing_numerics df cols = Except.ok t →
    (∀ m, m ∉ cols → getCol t m = getCol df m)
    ∧ (∀ k, ∃ g, getCol t k = (getCol df k).map (List.map g))
    ∧ t.map Prod.fst = df.map Prod.fst := by
  intro cols
  induction cols with
  | nil =>
    intro df t h
    have ht : df = t := by
      simpa [clean_missing_numerics] using h
    subst ht
    refine ⟨fun m _ => rfl, fun k => ⟨id, ?_⟩, rfl⟩
    cases getCol df k <;> simp
  | cons n rest ih =>
    intro df t h
    rcases hc : getCol df n with _ | c0
    · exfalso
      have herr : clean_missing_numerics df (n :: rest)
          = Except.error ("KeyError: " ++ n) := by
        simp only [clean_missing_numerics]
        rw [hc]
      rw [herr] at h
      cases h
    · have hstep : clean_missing_numerics df (n :: rest)
          = clean_missing_numerics (setCol df n (clean_column c0)) rest := by
        simp only [clean_missing_numerics]
        rw [hc]
      rw [hstep] at h
      obtain ⟨hframe, hmaps, hnames⟩ := ih (setCol df n (clean_column c0)) t h
      refine ⟨?_, ?_, by rw [hnames, setCol_names]⟩
      · intro m hm
        have hmn : m ≠ n := fun e => hm (e ▸ List.mem_cons_self n rest)
        have hmr : m ∉ rest := fun e => hm (List.mem_cons_of_mem n e)
        rw [hframe m hmr, getCol_setCol_ne _ _ _ _ hmn]
      · intro k
        by_cases hkn : k = n
        · subst hkn
          obtain ⟨g, hg⟩ := hmaps k
          obtain ⟨g0, hg0⟩ := clean_column_is_map c0
          refine ⟨g ∘ g0, ?_⟩
          rw [hg, getCol_setCol_self, hc]
          simp [hg0, List.map_map]
        · obtain ⟨g, hg⟩ := hmaps k
          exact ⟨g, by rw [hg, getCol_setCol_ne _ _ _ _ hkn]⟩

/-- C9: a successful cleaning pass leaves every column not in the list
unchanged, keeps every column an index-wise map of the original (so row
order is preserved position by position), preserves every column length
(the row count), and keeps the column names in order. -/
theorem clean_missing_numerics_frame (cols : List String) (df t : Table)
    (h : clean_missing_numerics df cols = Except.ok t) :
    (∀ m, m ∉ cols → getCol t m = getCol df m)
    ∧ (∀ k, ∃ g, getCol t k = (getCol df k).map (List.map g))
    ∧ (∀ k c c2, getCol df k = some c → getCol t k = some c2 → c2.length = c.length)
    ∧ t.map Prod.fst = df.map Prod.fst := by
  obtain ⟨hframe, hmaps, hnames⟩ := clean_frame_aux cols df t h
  refine ⟨hframe, hmaps, ?_, hnames⟩
  intro k c c2 hck hc2
  obtain ⟨g, hg⟩ := hmaps k
  rw [hck] at hg
  have := hc2.symm.trans hg
  simp only [Option.map_some] at this
  injection this with e
  rw [e]
  simp

/-- C9 witness: cleaning p0 in a two-column table leaves q untouched. -/
theorem clean_missing_numerics_frame_witness :
    clean_missing_numerics
        [("p0", [some (1 : ℚ), none, some 3]), ("q", [some 5, none, some 7])] ["p0"]
      = Except.ok [("p0", [some 1, some 2, some 3]), ("q", [some 5, none, some 7])]
    ∧ getCol [("p0", [some (1 : ℚ), some 2, some 3]), ("q", [some 5, none, some 7])] "q"
      = getCol [("p0", [some (1 : ℚ), none, some 3]), ("q", [some 5, none, some 7])] "q" := by
  have hcompute : clean_missing_numerics
      [("p0", [some (1 : ℚ), none, some 3]), ("q", [some 5, none, some 7])] ["p0"]
      = Except.ok [("p0", [some 1, some 2, some 3]), ("q", [some 5, none, some 7])] := by
    simp [clean_missing_numerics, getCol, setCol, clean_column, pandasMean]
    norm_num
  refine ⟨hcompute, ?_⟩
  exact (clean_missing_numerics_frame ["p0"]
    [("p0", [some (1 : ℚ), none, some 3]), ("q", [some 5, none, some 7])]
    [("p0", [some (1 : ℚ), some 2, some 3]), ("q", [some 5, none, some 7])]
    hcompute).1 "q" (by decide)

/-- The external ML toolkit interface train_pipeline uses: cross_val_score
yields the per-fold validation scores for a pipeline, feature matrix,
labels and fold count; fit returns the fitted pipeline (standing for the
in-place mutation of the sklearn object). -/
structure MLToolkit (P XT YT : Type) where
  cross_val_score : P → XT → YT → Nat → List ℚ
  fit : P → XT → YT → P

/-- Model of ndarray.mean over the returned fold scores. -/
def scoresMean (l : List ℚ) : ℚ := l.sum / l.length

/-- Embedding of train_pipeline: take the mean of cross_val_score with
cv=10 over the unfitted pipeline and the full X and y, then fit the
pipeline on the entirety of X and y, and return the score (the fitted
pipeline is returned alongside, standing for the mutated clf). -/
def train_pipeline {P XT YT : Type} (tk : MLToolkit P XT YT) (clf : P) (X : XT)
    (y : YT) : ℚ × P :=
  (scoresMean (tk.cross_val_score clf X y 10), tk.fit clf X y)

/-- C6: for every toolkit, pipeline, feature matrix and label vector,
train_pipeline returns the mean of the ten-fold cross-validation scores
computed on the unfitted pipeline over all of X and y, and the pipeline it
leaves behind is the one fitted on the entirety of X and y. -/
theorem train_pipeline_cv10_then_full_fit {P XT YT : Type}
    (tk : MLToolkit P XT YT) (clf : P) (X : XT) (y : YT) :
    (train_pipeline tk clf X y).1 = scoresMean (tk.cross_val_score clf X y 10)
    ∧ (train_pipeline tk clf X y).2 = tk.fit clf X y :=
  ⟨rfl, rfl⟩

/-- A value of the flat model-parameter record: string, int, float or
bool, as passed to the SVC classifier and to json.dumps. -/
inductive PValue : Type
  | pstr (v : String)
  | pint (v : Int)
  | pfloat (v : ℚ)
  | pbool (v : Bool)

/-- Model of Python str.join. -/
def joinStr (sep : String) : List String → String
  | [] => ""
  | [x] => x
  | x :: y :: t => x ++ sep ++ joinStr sep (y :: t)

/-- json.dumps of a single parameter value (string escaping is not
modelled; numeric rendering is modelled by toString). -/
def jsonPValue : PValue → String
  | PValue.pstr v => "\"" ++ v ++ "\""
  | PValue.pint v => toString v
  | PValue.pfloat v => toString v
  | PValue.pbool v => if v then "true" else "false"

/-- Model of json.dumps on the flat parameter record, preserving insertion
order. -/
def jsonDumpsParams (ps : List (String × PValue)) : String :=
  "\x7b" ++ joinStr ", " (ps.map fun p => "\"" ++ p.1 ++ "\": " ++ jsonPValue p.2)
    ++ "\x7d"

/-- A cell of the example rows: Python distinguishes str instances from
everything else when rendering the predict example. -/
inductive PyCell : Type
  | pstr (v : String)
  | pnum (v : ℚ)

/-- The single-quote character as a string. -/
def singleQuote : String := ⟨[Char.ofNat 39]⟩

/-- The rendering of one cell inside the predict example: str cells are
single-quoted, other cells rendered with str. -/
def cellPredictRepr : PyCell → String
  | PyCell.pstr v => singleQuote ++ v ++ singleQuote
  | PyCell.pnum v => toString v

/-- Model of the Python slice s[:-n]. -/
def pyDropRight (s : String) (n : Nat) : String := ⟨s.data.take (s.data.length - n)⟩

/-- Embedding of the buffer_example_data loop of prepare_report: open a
bracket, append each row as a bracketed comma-separated cell list with the
final two characters sliced off, close with a bracket after slicing the
final three characters. -/
def bufferExampleData (rows : List (List PyCell)) : String :=
  pyDropRight (rows.foldl (fun acc r =>
    pyDropRight (r.foldl (fun a c => a ++ cellPredictRepr c ++ ", ") (acc ++ "[")) 2
      ++ "], \n") "[") 3 ++ "]"

/-- Model of str applied to the Python list of column names. -/
def pyStrListRepr (cols : List String) : String :=
  "[" ++ joinStr ", " (cols.map fun s => singleQuote ++ s ++ singleQuote) ++ "]"

/-- json.dumps of one example cell. -/
def jsonCell : PyCell → String
  | PyCell.pstr v => "\"" ++ v ++ "\""
  | PyCell.pnum v => toString v

/-- Model of json.dumps on example_data.tolist(). -/
def jsonDumpsCells (rows : List (List PyCell)) : String :=
  "[" ++ joinStr ", " (rows.map fun r => "[" ++ joinStr ", " (r.map jsonCell) ++ "]")
    ++ "]"

/-- Embedding of prepare_report: the fixed template with the six format
slots filled in.  The template text is reproduced verbatim from the
source, split so that the documented section headers are standalone
pieces. -/
def prepare_report (cv_score : ℚ) (model_params : List (String × PValue))
    (classification_report : String) (columns : List String)
    (example_data : List (List PyCell)) : String :=
  "\nTraining Job Report    \n    \n"
    ++ "Cross Validation Score:"
    ++ " " ++ toString cv_score ++ "\n\n"
    ++ "Training Model Parameters:"
    ++ " " ++ jsonDumpsParams model_params
    ++ "\n    \nTest Data Classification Report:\n" ++ classification_report
    ++ "\n\nExample of data array for prediciton:\n\nOrder of columns:\n"
    ++ pyStrListRepr columns
    ++ "\n\nExample for clf.predict()\n" ++ bufferExampleData example_data
    ++ "\n\n\n"
    ++ "Example of GCP API request body:"
    ++ "\n\x7b\n    \"instances\": " ++ jsonDumpsCells example_data
    ++ "\n\x7d\n\n"

example : bufferExampleData [[PyCell.pnum 1, PyCell.pnum 2], [PyCell.pnum 3, PyCell.pnum 4]]
    = "[[1, 2], \n[3, 4]]" := by decide

example : jsonDumpsCells [[PyCell.pnum 1, PyCell.pstr "a"]] = "[[1, \"a\"]]" := by decide

example : jsonDumpsParams [("kernel", PValue.pstr "linear"), ("degree", PValue.pint 3),
    ("probability", PValue.pbool true)]
    = "\x7b\"kernel\": \"linear\", \"degree\": 3, \"probability\": true\x7d" := by decide

/-- s contains sub as a contiguous substring. -/
def containsSub (s sub : String) : Prop := ∃ a b, s = a ++ (sub ++ b)

theorem string_append_assoc (a b c : String) : a ++ b ++ c = a ++ (b ++ c) :=
  String.ext (by simp [String.data_append])

theorem containsSub_self (s : String) : containsSub s s :=
  ⟨"", "", String.ext (by simp [String.data_append])⟩

theorem containsSub_appl (s t sub : String) (h : containsSub s sub) :
    containsSub (s ++ t) sub := by
  obtain ⟨a, b, hab⟩ := h
  exact ⟨a, b ++ t, by rw [hab]; simp [string_append_assoc]⟩

theorem containsSub_appr (s t sub : String) (h : containsSub t sub) :
    containsSub (s ++ t) sub := by
  obtain ⟨a, b, hab⟩ := h
  exact ⟨s ++ a, b, by rw [hab]; simp [string_append_assoc]⟩

/-- C7: for every score, parameter record, metrics text, column list and
non-empty example row set, the report contains the three documented
section headers as literal substrings and echoes the serialized parameter
record verbatim. -/
theorem prepare_report_contains_sections (cv_score : ℚ)
    (model_params : List (String × PValue)) (classification_report : String)
    (columns : List String) (example_data : List (List PyCell))
    (_hne : example_data ≠ []) :
    containsSub (prepare_report cv_score model_params classification_report
      columns example_data) "Cross Validation Score:"
    ∧ containsSub (prepare_report cv_score model_params classification_report
      columns example_data) "Training Model Parameters:"
    ∧ containsSub (prepare_report cv_score model_params classification_report
      columns example_data) "Example of GCP API request body:"
    ∧ containsSub (prepare_report cv_score model_params classification_report
      columns example_data) (jsonDumpsParams model_params) := by
  refine ⟨?_, ?_, ?_, ?_⟩ <;> unfold prepare_report
  · iterate 17 apply containsSub_appl
    apply containsSub_appr
    exact containsSub_self _
  · iterate 13 apply containsSub_appl
    apply containsSub_appr
    exact containsSub_self _
  · iterate 3 apply containsSub_appl
    apply containsSub_appr
    exact containsSub_self _
  · iterate 11 apply containsSub_appl
    apply containsSub_appr
    exact containsSub_self _

/-- C7 witness: a one-row example set is non-empty and the report echoes
the serialized parameter record. -/
theorem prepare_report_contains_sections_witness :
    [[PyCell.pnum 1]] ≠ ([] : List (List PyCell))
    ∧ containsSub (prepare_report 1 [("kernel", PValue.pstr "linear")] "report text"
        ["p0"] [[PyCell.pnum 1]]) (jsonDumpsParams [("kernel", PValue.pstr "linear")]) :=
  ⟨by simp, (prepare_report_contains_sections 1 [("kernel", PValue.pstr "linear")]
      "report text" ["p0"] [[PyCell.pnum 1]] (by simp)).2.2.2⟩
